import Mathlib



/-!
Verification of the source health checker (`scripts/check-sources.js`).

The script is shallowly embedded: pure helpers (`buildTestUrl`,
`judgeResponseShape`) become Lean functions over strings and JSON values;
`JSON.parse` is modelled by an executable fuel-based JSON parser; the
network (`fetch` with an abort timer) is modelled by an oracle assigning a
network behaviour to each URL; the eight-worker pool of `main` becomes a
small-step transition system over a run state holding the shared queue,
the worker statuses and the shared result list.
-/

/-! ## JSON values (results of `JSON.parse`) -/

/-- A JSON value as produced by `JSON.parse`.  Numbers are kept exactly as
`(-1)^neg * mantissa * 10^exp10`, which determines their JS truthiness. -/
inductive JValue where
  | null
  | bool (b : Bool)
  | num (neg : Bool) (mantissa : Nat) (exp10 : Int)
  | str (s : String)
  | arr (elems : List JValue)
  | obj (fields : List (String × JValue))

/-- JS truthiness of a parsed JSON value (`null`, `false`, `0`, `""` are
falsy; arrays and objects are always truthy). -/
def truthy : JValue → Bool
  | JValue.null => false
  | JValue.bool b => b
  | JValue.num _ m _ => if m = 0 then false else true
  | JValue.str s => if s = "" then false else true
  | JValue.arr _ => true
  | JValue.obj _ => true

/-- Property read `v.k`; `none` models the JS value `undefined`.  The
property names the script reads (`list`, `data`, `code`, `total`,
`api_site`, `name`, `api`) are not built-in properties of the non-object
JS value types, so own-property lookup on objects suffices. -/
def jsGet (j : JValue) (k : String) : Option JValue :=
  match j with
  | JValue.obj fs => (fs.find? (fun p => p.1 == k)).map Prod.snd
  | _ => none

/-- Truthiness of a possibly-`undefined` value. -/
def truthyOpt : Option JValue → Bool
  | some v => truthy v
  | none => false

/-- Model of `Array.isArray` applied to a possibly-`undefined` value. -/
def isArrOpt : Option JValue → Bool
  | some (JValue.arr _) => true
  | _ => false

/-! ## A JSON parser modelling `JSON.parse` (ECMA-404 grammar) -/

def quoteC : Char := Char.ofNat 34

def backslashC : Char := Char.ofNat 92

def lbraceC : Char := Char.ofNat 123

def rbraceC : Char := Char.ofNat 125

/-- JSON insignificant whitespace: space, tab, LF, CR. -/
def jsonWs (c : Char) : Bool :=
  c.toNat = 32 || c.toNat = 9 || c.toNat = 10 || c.toNat = 13

def skipWs (cs : List Char) : List Char := cs.dropWhile jsonWs

def hexVal (c : Char) : Option Nat :=
  if 48 ≤ c.toNat ∧ c.toNat ≤ 57 then some (c.toNat - 48)
  else if 97 ≤ c.toNat ∧ c.toNat ≤ 102 then some (c.toNat - 87)
  else if 65 ≤ c.toNat ∧ c.toNat ≤ 70 then some (c.toNat - 55)
  else none

/-- Single-character string escapes. -/
def escChar (c : Char) : Option Char :=
  if c = quoteC then some quoteC
  else if c = backslashC then some backslashC
  else if c = '/' then some '/'
  else if c = 'b' then some (Char.ofNat 8)
  else if c = 'f' then some (Char.ofNat 12)
  else if c = 'n' then some (Char.ofNat 10)
  else if c = 'r' then some (Char.ofNat 13)
  else if c = 't' then some (Char.ofNat 9)
  else none

/-- A UTF-16 code unit as a character.  A lone surrogate is not
representable as a Lean `Char` and is mapped to U+FFFD; no claim depends
on such strings. -/
def codeUnitChar (n : Nat) : Char :=
  if 0xd800 ≤ n ∧ n ≤ 0xdfff then Char.ofNat 0xfffd else Char.ofNat n

/-- Recognize a `\uXXXX` escape denoting a low surrogate at the head of
the input; returns its value and the rest. -/
def lowSurrogate (cs : List Char) : Option (Nat × List Char) :=
  match cs with
  | b1 :: u2 :: j1 :: j2 :: j3 :: j4 :: rest =>
    if b1 = backslashC ∧ u2 = 'u' then
      match hexVal j1, hexVal j2, hexVal j3, hexVal j4 with
      | some a, some b, some c, some d =>
        let m := ((a * 16 + b) * 16 + c) * 16 + d
        if 0xdc00 ≤ m ∧ m ≤ 0xdfff then some (m, rest) else none
      | _, _, _, _ => none
    else none
  | _ => none

/-- Parse the body of a JSON string (the opening quote already consumed). -/
def parseJString (fuel : Nat) (cs : List Char) (acc : List Char) :
    Option (String × List Char) :=
  match fuel with
  | 0 => none
  | fuel + 1 =>
    match cs with
    | [] => none
    | c :: rest =>
      if c = quoteC then some (String.mk acc.reverse, rest)
      else if c = backslashC then
        match rest with
        | [] => none
        | e :: rest2 =>
          if e = 'u' then
            match rest2 with
            | h1 :: h2 :: h3 :: h4 :: rest3 =>
              match hexVal h1, hexVal h2, hexVal h3, hexVal h4 with
              | some a, some b, some c2, some d =>
                let n := ((a * 16 + b) * 16 + c2) * 16 + d
                if 0xd800 ≤ n ∧ n ≤ 0xdbff then
                  match lowSurrogate rest3 with
                  | some (m, rest4) =>
                    parseJString fuel rest4
                      (Char.ofNat (0x10000 + (n - 0xd800) * 0x400 + (m - 0xdc00)) :: acc)
                  | none => parseJString fuel rest3 (codeUnitChar n :: acc)
                else parseJString fuel rest3 (codeUnitChar n :: acc)
              | _, _, _, _ => none
            | _ => none
          else
            match escChar e with
            | some ch => parseJString fuel rest2 (ch :: acc)
            | none => none
      else if c.toNat < 32 then none
      else parseJString fuel rest (c :: acc)

def natOfDigits (ds : List Char) : Nat :=
  ds.foldl (fun n c => n * 10 + (c.toNat - 48)) 0

/-- Optional fraction part `.digits` of a JSON number. -/
def parseFrac (rest : List Char) : Option (List Char × List Char) :=
  match rest with
  | p :: r =>
    if p = '.' then
      let sp := List.span Char.isDigit r
      if sp.1.isEmpty then none else some (sp.1, sp.2)
    else some ([], rest)
  | [] => some ([], rest)

/-- Optional exponent part `e[+-]digits` of a JSON number. -/
def parseExp (rest : List Char) : Option (Int × List Char) :=
  match rest with
  | p :: r =>
    if p = 'e' ∨ p = 'E' then
      match r with
      | q :: r2 =>
        if q = '+' then
          let sp := List.span Char.isDigit r2
          if sp.1.isEmpty then none else some ((natOfDigits sp.1 : Int), sp.2)
        else if q = '-' then
          let sp := List.span Char.isDigit r2
          if sp.1.isEmpty then none else some (-(natOfDigits sp.1 : Int), sp.2)
        else
          let sp := List.span Char.isDigit r
          if sp.1.isEmpty then none else some ((natOfDigits sp.1 : Int), sp.2)
      | [] => none
    else some (0, rest)
  | [] => some (0, rest)

def parseNumTail (neg : Bool) (intDigits : List Char) (rest : List Char) :
    Option (JValue × List Char) :=
  match parseFrac rest with
  | none => none
  | some (fracDigits, rest2) =>
    match parseExp rest2 with
    | none => none
    | some (e, rest3) =>
      some (JValue.num neg (natOfDigits (intDigits ++ fracDigits))
              (e - (fracDigits.length : Int)), rest3)

def parseNumber (cs : List Char) : Option (JValue × List Char) :=
  let p :=
    match cs with
    | c :: r => if c = '-' then (true, r) else (false, cs)
    | [] => (false, cs)
  match p.2 with
  | [] => none
  | c :: r =>
    if c = '0' then
      match r with
      | d :: _ => if d.isDigit then none else parseNumTail p.1 [c] r
      | [] => parseNumTail p.1 [c] r
    else if c.isDigit then
      let sp := List.span Char.isDigit p.2
      parseNumTail p.1 sp.1 sp.2
    else none

/-- Insert a member into an object under construction; a duplicate key
overwrites the value in place, as `JSON.parse` does. -/
def objSet (fs : List (String × JValue)) (k : String) (v : JValue) :
    List (String × JValue) :=
  if fs.any (fun p => p.1 == k) then
    fs.map (fun p => if p.1 == k then (k, v) else p)
  else fs ++ [(k, v)]

/-- Parsing mode: a single value, the members of an object, or the items
of an array. -/
inductive PMode where
  | val
  | members (acc : List (String × JValue))
  | items (acc : List JValue)

/-- The JSON parser.  Every recursive call consumes at least one input
character per two units of fuel, so `2 * length + 8` fuel always
suffices. -/
def parseF (fuel : Nat) (mode : PMode) (cs : List Char) :
    Option (JValue × List Char) :=
  match fuel with
  | 0 => none
  | fuel + 1 =>
    match mode with
    | PMode.val =>
      match skipWs cs with
      | [] => none
      | c :: rest =>
        if c = lbraceC then
          match skipWs rest with
          | d :: rest2 =>
            if d = rbraceC then some (JValue.obj [], rest2)
            else parseF fuel (PMode.members []) (d :: rest2)
          | [] => none
        else if c = '[' then
          match skipWs rest with
          | d :: rest2 =>
            if d = ']' then some (JValue.arr [], rest2)
            else parseF fuel (PMode.items []) (d :: rest2)
          | [] => none
        else if c = quoteC then
          match parseJString (rest.length + 1) rest [] with
          | some (s, rest2) => some (JValue.str s, rest2)
          | none => none
        else if c = 't' then
          match rest with
          | 'r' :: 'u' :: 'e' :: rest2 => some (JValue.bool true, rest2)
          | _ => none
        else if c = 'f' then
          match rest with
          | 'a' :: 'l' :: 's' :: 'e' :: rest2 => some (JValue.bool false, rest2)
          | _ => none
        else if c = 'n' then
          match rest with
          | 'u' :: 'l' :: 'l' :: rest2 => some (JValue.null, rest2)
          | _ => none
        else parseNumber (c :: rest)
    | PMode.members acc =>
      match cs with
      | c :: rest =>
        if c = quoteC then
          match parseJString (rest.length + 1) rest [] with
          | some (k, rest2) =>
            match skipWs rest2 with
            | colon :: rest3 =>
              if colon = ':' then
                match parseF fuel PMode.val rest3 with
                | some (v, rest4) =>
                  match skipWs rest4 with
                  | sep :: rest5 =>
                    if sep = ',' then
                      parseF fuel (PMode.members (objSet acc k v)) (skipWs rest5)
                    else if sep = rbraceC then
                      some (JValue.obj (objSet acc k v), rest5)
                    else none
                  | [] => none
                | none => none
              else none
            | [] => none
          | none => none
        else none
      | [] => none
    | PMode.items acc =>
      match parseF fuel PMode.val cs with
      | some (v, rest) =>
        match skipWs rest with
        | c :: rest2 =>
          if c = ',' then parseF fuel (PMode.items (acc ++ [v])) rest2
          else if c = ']' then some (JValue.arr (acc ++ [v]), rest2)
          else none
        | [] => none
      | none => none

/-- Model of `JSON.parse`: parse one JSON value and require only whitespace after
it; `none` models a thrown `SyntaxError`. -/
def jsonParse (s : String) : Option JValue :=
  match parseF (2 * s.length + 8) PMode.val s.data with
  | some (v, rest) => if (skipWs rest).isEmpty then some v else none
  | none => none

/-! ## String helpers used by the script -/

/-- JS `String.prototype.trim` whitespace (WhiteSpace and LineTerminator
code points). -/
def jsWhitespace (c : Char) : Bool :=
  c.toNat = 9 || c.toNat = 10 || c.toNat = 11 || c.toNat = 12 || c.toNat = 13 ||
  c.toNat = 32 || c.toNat = 0xa0 || c.toNat = 0x1680 ||
  (0x2000 ≤ c.toNat && c.toNat ≤ 0x200a) || c.toNat = 0x2028 ||
  c.toNat = 0x2029 || c.toNat = 0x202f || c.toNat = 0x205f ||
  c.toNat = 0x3000 || c.toNat = 0xfeff

/-- JS `String.prototype.trim`. -/
def jsTrim (s : String) : String :=
  String.mk (((s.data.dropWhile jsWhitespace).reverse.dropWhile jsWhitespace).reverse)

/-- Whether `pre` is a character-wise prefix of the second list. -/
def isCharPrefix : List Char → List Char → Bool
  | [], _ => true
  | _ :: _, [] => false
  | p :: ps, c :: cs => p = c && isCharPrefix ps cs

/-- JS `String.prototype.startsWith`. -/
def jsStartsWith (s pat : String) : Bool := isCharPrefix pat.data s.data

/-- JS `String.prototype.includes` with a one-character needle. -/
def containsChar (s : String) (c : Char) : Bool := s.data.any (fun d => d = c)

/-- JS `a || b` for string values: the only falsy string is `""`. -/
def jsOr (s d : String) : String := if s = "" then d else s

/-- JS `a || b` where `a` may be `undefined` (modelled as `none`). -/
def jsOrS (x : Option String) (d : String) : String :=
  match x with
  | some s => if s = "" then d else s
  | none => d

def uriUnreserved (c : Char) : Bool :=
  c.isAlpha || c.isDigit || c = '-' || c = '_' || c = '.' || c = '!' ||
  c = '~' || c = '*' || c = Char.ofNat 39 || c = '(' || c = ')'

def hexDigitU (n : Nat) : Char :=
  if n < 10 then Char.ofNat (48 + n) else Char.ofNat (55 + n)

def percentByte (n : Nat) : String :=
  String.mk ['%', hexDigitU (n / 16), hexDigitU (n % 16)]

/-- JS `encodeURIComponent`: unreserved characters are kept, every other
character is percent-encoded byte by byte in UTF-8. -/
def encodeURIComponent (s : String) : String :=
  s.data.foldl (fun acc c =>
    if uriUnreserved c then acc ++ String.singleton c
    else acc ++ String.join (((String.singleton c).toUTF8.toList).map
      (fun b => percentByte b.toNat))) ""

/-! ## The script's constants and pure helpers -/

def TEST_QUERY : String := "test"

def TIMEOUT_MS : Nat := 10000

def CONCURRENCY : Nat := 8

/-- Function `buildTestUrl` from `scripts/check-sources.js`:
normalize the base with `trim`, pick `&` over `?` when the trimmed base
already contains a query string, and append the AppleCMS v10 search
query. -/
def buildTestUrl (base : String) : String :=
  let url := jsTrim base
  let sep := if containsChar url '?' then "&" else "?"
  url ++ sep ++ "ac=videolist&wd=" ++ encodeURIComponent TEST_QUERY ++ "&pg=1"

/-- The verdict strings used by the script: the shape classifier produces
`ok`, `ok_maybe`, `unknown`, `xml_or_html`, `text` and `empty`; the
worker additionally produces `pass` and `fail`. -/
inductive Verdict where
  | ok
  | ok_maybe
  | unknown
  | xml_or_html
  | text
  | empty
  | pass
  | fail
deriving DecidableEq

def Verdict.str : Verdict → String
  | Verdict.ok => "ok"
  | Verdict.ok_maybe => "ok_maybe"
  | Verdict.unknown => "unknown"
  | Verdict.xml_or_html => "xml_or_html"
  | Verdict.text => "text"
  | Verdict.empty => "empty"
  | Verdict.pass => "pass"
  | Verdict.fail => "fail"

structure JudgeResult where
  verdict : Verdict
  detail : String
deriving DecidableEq

/-- The `JSON.parse` succeeded branch of `judgeResponseShape`. -/
def judgeParsed (json : JValue) : JudgeResult :=
  if truthy json && isArrOpt (jsGet json "list") then
    ⟨Verdict.ok, "JSON with list[]"⟩
  else if truthy json && isArrOpt (jsGet json "data") then
    ⟨Verdict.ok_maybe, "JSON with data[]"⟩
  else if truthy json && ((jsGet json "code").isSome || (jsGet json "total").isSome) then
    ⟨Verdict.ok_maybe, "JSON with code/total"⟩
  else ⟨Verdict.unknown, "JSON but unknown shape"⟩

/-- Function `judgeResponseShape` from `scripts/check-sources.js`.  The
`typeof text === 'string'` guards of the source are identically true at
its call site (`r.text || ''` is always a string) and are dropped. -/
def judgeResponseShape (text : String) : JudgeResult :=
  match jsonParse text with
  | some json => judgeParsed json
  | none =>
    if jsStartsWith (jsTrim text) "<" then
      ⟨Verdict.xml_or_html, "Non-JSON response (XML/HTML)"⟩
    else if 0 < text.length then ⟨Verdict.text, "Plain text response"⟩
    else ⟨Verdict.empty, "Empty body"⟩

/-! ## `fetchWithTimeout` -/

/-- The request object `fetchWithTimeout` passes to `fetch`. -/
structure FetchRequest where
  url : String
  method : String
  userAgent : String
  accept : String
  redirect : String
deriving DecidableEq

/-- The request constructed by `fetchWithTimeout` for a URL. -/
def checkRequest (url : String) : FetchRequest :=
  { url := url
    method := "GET"
    userAgent := "Mozilla/5.0 (Windows NT 10.0; Win64; x64) AppleWebKit/537.36 (KHTML, like Gecko) Chrome/122 Safari/537.36"
    accept := "application/json, text/plain;q=0.9, */*;q=0.8"
    redirect := "follow" }

/-- Outcome of `fetchWithTimeout`: `ok`/`status`/`text` on a response,
`ok := false`, `status := 0` and `error` on a caught exception. -/
structure FetchResult where
  ok : Bool
  status : Nat
  text : Option String
  error : Option String
deriving DecidableEq

/-- Behaviour of the network for one GET request: a response (possibly
non-2xx) after `after` milliseconds, a thrown error after `after`
milliseconds, or no settlement at all. -/
inductive NetBehavior where
  | replies (ok : Bool) (status : Nat) (body : String) (after : Nat)
  | fails (errTruthy : Bool) (message : String) (asString : String) (after : Nat)
  | hangs
deriving DecidableEq

/-- Model of `e && e.message ? e.message : String(e)` for a thrown value `e` with
the given truthiness, `message` property (`""` when absent or empty) and
`String(e)` rendering. -/
def errDetail (errTruthy : Bool) (message asString : String) : String :=
  if errTruthy ∧ message ≠ "" then message else asString

/-- Message of the `DOMException` produced when the abort controller
cancels the request (Node 18 `fetch`). -/
def ABORT_MESSAGE : String := "This operation was aborted"

/-- Function `fetchWithTimeout` from `scripts/check-sources.js`: the abort timer
fires after `ms` milliseconds, so the network behaviour settles the
request only if it acts strictly earlier; every exception is caught and
returned as a failure outcome with status 0. -/
def fetchWithTimeout (nb : NetBehavior) (ms : Nat) : FetchResult :=
  match nb with
  | NetBehavior.replies ok status body t =>
    if t < ms then { ok := ok, status := status, text := some body, error := none }
    else { ok := false, status := 0, text := none, error := some ABORT_MESSAGE }
  | NetBehavior.fails tr msg str t =>
    if t < ms then { ok := false, status := 0, text := none, error := some (errDetail tr msg str) }
    else { ok := false, status := 0, text := none, error := some ABORT_MESSAGE }
  | NetBehavior.hangs =>
    { ok := false, status := 0, text := none, error := some ABORT_MESSAGE }

/-! ## The worker pool of `main` as a transition system

Endpoint descriptors follow the config schema: an `api_site` entry maps a
key to an object with string `name` and `api` fields; an absent or falsy
field is modelled as `""`, matching its use in `(site && site.api) || ''`
and `site.name || key`. -/

structure Site where
  name : String
  api : String
deriving DecidableEq

/-- One probe result, as pushed by a worker onto the shared `results`
list (the `status` field is literally `r.status || 0`, which coincides
with `r.status` since `0` is the only falsy number involved). -/
structure ProbeResult where
  key : String
  name : String
  base : String
  testUrl : String
  verdict : Verdict
  status : Nat
  ms : Nat
  detail : String
deriving DecidableEq

/-- The network oracle: for each URL, the behaviour of the GET request
and the wall-clock `Date.now()` difference the worker observes. -/
def Oracle : Type := String → NetBehavior × Nat

/-- Model of `judge.verdict === 'ok' ? 'pass' : judge.verdict`. -/
def workerVerdict (v : Verdict) : Verdict :=
  if v = Verdict.ok then Verdict.pass else v

/-- Model of `const base = (site && site.api) || ''` followed by
`buildTestUrl(base)`; the site is an object here, hence truthy. -/
def urlOfSite (site : Site) : String := buildTestUrl (jsOr site.api "")

/-- The probe result a worker records for endpoint `key`/`site` whose
test URL is `testUrl`, given the oracle. -/
def mkResult (o : Oracle) (key : String) (site : Site) (testUrl : String) :
    ProbeResult :=
  let r := fetchWithTimeout (o testUrl).1 TIMEOUT_MS
  let ms := (o testUrl).2
  if r.ok then
    let judge := judgeResponseShape (jsOrS r.text "")
    { key := key, name := jsOr site.name key, base := jsOr site.api ""
      testUrl := testUrl, verdict := workerVerdict judge.verdict
      status := r.status, ms := ms, detail := judge.detail }
  else
    { key := key, name := jsOr site.name key, base := jsOr site.api ""
      testUrl := testUrl, verdict := Verdict.fail
      status := r.status, ms := ms
      detail :=
        match r.error with
        | some e => if e = "" then "HTTP " ++ Nat.repr r.status else e
        | none => "HTTP " ++ Nat.repr r.status }

/-- The progress line a worker prints after recording a result
(`r.status || ''` renders the falsy status 0 as the empty string). -/
def progressLine (o : Oracle) (total tested : Nat) (key : String)
    (site : Site) (testUrl : String) : String :=
  let res := mkResult o key site testUrl
  let mark :=
    if res.verdict = Verdict.pass then "âœ…"
    else if res.verdict = Verdict.ok_maybe then "ðŸŸ¡" else "âŒ"
  mark ++ " [" ++ Nat.repr tested ++ "/" ++ Nat.repr total ++ "] " ++ key ++
    " - " ++ jsOr site.name "" ++ " (" ++ Nat.repr res.ms ++ "ms) -> " ++
    Verdict.str res.verdict ++ " " ++
    (if res.status = 0 then "" else Nat.repr res.status) ++ " " ++ res.detail

/-- Status of one worker of the pool: ready to pull the next queue entry,
awaiting the response for an entry, or finished (its `while` loop saw an
empty queue). -/
inductive WStatus where
  | idle
  | fetching (key : String) (site : Site) (testUrl : String)
  | done
deriving DecidableEq

/-- Shared state of a run: the work queue, the pool, the shared results
list, the `tested` counter, the stdout lines, and the trace of GET
requests issued so far (key and test URL of each probe started). -/
structure RunState where
  queue : List (String × Site)
  workers : List WStatus
  results : List ProbeResult
  tested : Nat
  logs : List String
  fetches : List (String × String)
  total : Nat
deriving DecidableEq

/-- Initial state: all entries queued, `CONCURRENCY` idle workers. -/
def initState (entries : List (String × Site)) : RunState :=
  { queue := entries, workers := List.replicate CONCURRENCY WStatus.idle
    results := [], tested := 0, logs := [], fetches := [], total := entries.length }

/-- One event-loop transition of the pool.  `start`: a worker whose loop
condition saw a non-empty queue synchronously shifts the head entry and
issues its GET (shift and request start are atomic: no `await` separates
them).  `finish`: an in-flight request settles, the worker pushes its
result, bumps `tested`, prints the progress line and loops.  `retire`: a
worker whose loop condition saw an empty queue returns. -/
inductive Step (o : Oracle) : RunState → RunState → Prop where
  | start (s : RunState) (i : Nat) (k : String) (site : Site)
      (rest : List (String × Site)) :
      s.workers.get? i = some WStatus.idle →
      s.queue = (k, site) :: rest →
      Step o s { s with
                 queue := rest,
                 workers := s.workers.set i (WStatus.fetching k site (urlOfSite site)),
                 fetches := s.fetches ++ [(k, urlOfSite site)] }
  | finish (s : RunState) (i : Nat) (k : String) (site : Site) (url : String) :
      s.workers.get? i = some (WStatus.fetching k site url) →
      Step o s { s with
                 workers := s.workers.set i WStatus.idle,
                 results := s.results ++ [mkResult o k site url],
                 tested := s.tested + 1,
                 logs := s.logs ++ [progressLine o s.total (s.tested + 1) k site url] }
  | retire (s : RunState) (i : Nat) :
      s.workers.get? i = some WStatus.idle →
      s.queue = [] →
      Step o s { s with workers := s.workers.set i WStatus.done }

/-- A scheduling decision: which worker moves, and how. -/
inductive Choice where
  | start (i : Nat)
  | finish (i : Nat)
  | retire (i : Nat)
deriving DecidableEq

/-- Executable form of `Step`, used to drive concrete runs. -/
def stepFn (o : Oracle) (c : Choice) (s : RunState) : Option RunState :=
  match c with
  | Choice.start i =>
    match s.workers.get? i, s.queue with
    | some WStatus.idle, (k, site) :: rest =>
      some { s with
             queue := rest,
             workers := s.workers.set i (WStatus.fetching k site (urlOfSite site)),
             fetches := s.fetches ++ [(k, urlOfSite site)] }
    | _, _ => none
  | Choice.finish i =>
    match s.workers.get? i with
    | some (WStatus.fetching k site url) =>
      some { s with
             workers := s.workers.set i WStatus.idle,
             results := s.results ++ [mkResult o k site url],
             tested := s.tested + 1,
             logs := s.logs ++ [progressLine o s.total (s.tested + 1) k site url] }
    | _ => none
  | Choice.retire i =>
    match s.workers.get? i, s.queue with
    | some WStatus.idle, [] =>
      some { s with workers := s.workers.set i WStatus.done }
    | _, _ => none

/-- Run a schedule; an inapplicable choice leaves the state unchanged. -/
def runSched (o : Oracle) (cs : List Choice) (s : RunState) : RunState :=
  match cs with
  | [] => s
  | c :: rest => runSched o rest ((stepFn o c s).getD s)

/-- The states of a run over the given entries. -/
def Reaches (o : Oracle) (entries : List (String × Site)) (s : RunState) : Prop :=
  Relation.ReflTransGen (Step o) (initState entries) s

/-- Predicate: `Promise.all(workers)` has resolved: every worker returned. -/
def allDone (s : RunState) : Prop := ∀ w ∈ s.workers, w = WStatus.done

instance (s : RunState) : Decidable (allDone s) :=
  List.decidableBAll _ s.workers

/-- The key/URL pair of a worker's in-flight request, if any. -/
def statusPair : WStatus → Option (String × String)
  | WStatus.fetching k _ url => some (k, url)
  | _ => none

/-- The key/URL pairs of the requests currently in flight. -/
def inflightPairs (ws : List WStatus) : List (String × String) :=
  ws.filterMap statusPair

/-- Number of in-flight GET requests. -/
def inFlight (s : RunState) : Nat := (inflightPairs s.workers).length

def pairOf (e : String × Site) : String × String := (e.1, urlOfSite e.2)

def resPair (r : ProbeResult) : String × String := (r.key, r.testUrl)

/-- The run invariant: the pool has `CONCURRENCY` workers; the
configured entries are partitioned (as a multiset of key/URL pairs)
between the queue, the in-flight requests and the recorded results; the
fetch trace is exactly the started probes; every in-flight worker and
every recorded result stems from a configured entry; the queue holds
only configured entries; and a finished run has an empty queue. -/
def RunInv (o : Oracle) (entries : List (String × Site)) (s : RunState) : Prop :=
  s.workers.length = CONCURRENCY ∧
  (((s.queue.map pairOf : List (String × String)) : Multiset (String × String)) +
      ↑(inflightPairs s.workers) + ↑(s.results.map resPair) =
    ↑(entries.map pairOf)) ∧
  ((s.fetches : Multiset (String × String)) =
    ↑(inflightPairs s.workers) + ↑(s.results.map resPair)) ∧
  (∀ w ∈ s.workers, ∀ k site url, w = WStatus.fetching k site url →
    (k, site) ∈ entries ∧ url = urlOfSite site) ∧
  (∀ r ∈ s.results, ∃ e ∈ entries, r = mkResult o e.1 e.2 (urlOfSite e.2)) ∧
  (∀ e ∈ s.queue, e ∈ entries) ∧
  (allDone s → s.queue = [])

/-- The specification's shape cascade, stated in its own words: `ok` for
an array-valued `list` field, `ok_maybe` for an array-valued `data`
field, `ok_maybe` for a present `code` or `total` field, `unknown`
otherwise.  Compared against `judgeParsed`, which also guards on the
truthiness of the parsed value. -/
def specShapeVerdict (j : JValue) : Verdict :=
  if isArrOpt (jsGet j "list") then Verdict.ok
  else if isArrOpt (jsGet j "data") then Verdict.ok_maybe
  else if (jsGet j "code").isSome || (jsGet j "total").isSome then Verdict.ok_maybe
  else Verdict.unknown

/-! ## `main`: configuration handling, run orchestration, exit codes -/

/-- The configuration file at `CONFIG_PATH`: absent, or present with raw
contents. -/
inductive CfgFile where
  | missing
  | present (raw : String)

/-- Observable outcome of one `main` invocation: process exit code
(`0` for a normal return), stdout lines, stderr lines, the report file
contents (`none` when no report is written) and the GET requests
issued. -/
structure MainOutcome where
  exitCode : Nat
  logs : List String
  errs : List String
  report : Option (List ProbeResult)
  fetches : List (String × String)
deriving DecidableEq

/-- Model of `path.join(process.cwd(), 'config.json')`; the model does not
normalize paths. -/
def configPath (cwd : String) : String := cwd ++ "/config.json"

/-- Model of `Object.entries` on a parsed JSON value: an object's own fields in
order; for a (truthy) string or array, its indexed elements; no own
enumerable properties otherwise. -/
def jsEntries (v : JValue) : List (String × JValue) :=
  match v with
  | JValue.obj fs => fs
  | JValue.str s =>
    (s.data.enum).map (fun p => (Nat.repr p.1, JValue.str (String.singleton p.2)))
  | JValue.arr xs => (xs.enum).map (fun p => (Nat.repr p.1, p.2))
  | _ => []

/-- Read a string field of a site descriptor; per the config schema the
`name` and `api` fields are strings, and an absent or non-string value
is modelled as the falsy `""` (matching `(site && site.api) || ''` and
`site.name || key`). -/
def strField (v : JValue) (f : String) : String :=
  match jsGet v f with
  | some (JValue.str s) => s
  | _ => ""

/-- Conversion of a site value to an endpoint descriptor.  Applied only
to non-null site values: on those, the property reads `site.api` and
`site.name` cannot throw (primitives auto-wrap; objects and arrays read
fine), so the worker body is total and `strField`'s falsy default is
faithful.  A JSON-null site value instead makes the worker throw a
`TypeError` at the unguarded `site.name` — that crash is handled in
`mainOutcome` before any conversion. -/
def siteOf (v : JValue) : Site := { name := strField v "name", api := strField v "api" }

/-- Whether a parsed JSON value is `null` — the one site value on which
the worker's unguarded `site.name` read throws a `TypeError` (JSON has
no `undefined`, and every other value auto-wraps or is an object). -/
def isNullV : JValue → Bool
  | JValue.null => true
  | _ => false

/-- Model of `const sites = cfg && cfg.api_site ? cfg.api_site : ...` with an
empty object as the fallback. -/
def sitesOf (cfg : JValue) : JValue :=
  if truthy cfg && truthyOpt (jsGet cfg "api_site") then
    (jsGet cfg "api_site").getD JValue.null
  else JValue.obj []

/-- Whether a run over this parsed configuration crashes: some
`api_site` entry holds a JSON-null site.  The worker that shifts that
entry issues its GET, awaits it, then throws at `site.name`; the throw
is unconditional once the pool runs, so the resulting exit code is
deterministic. -/
def crashesOnNullSite (cfgv : JValue) : Bool :=
  (jsEntries (sitesOf cfgv)).any (fun p => isNullV p.2)


def NO_ENTRIES_LINE : String := "No api_site entries found."

def testingLine (n : Nat) : String :=
  "Testing " ++ Nat.repr n ++ " sources (GET only, timeout " ++
    Nat.repr TIMEOUT_MS ++ "ms)...\n"

/-- The final summary block printed after the run. -/
def summaryLines (results : List ProbeResult) : List String :=
  ["\n===== SUMMARY =====",
   "PASS: " ++ Nat.repr (results.filter (fun r => r.verdict == Verdict.pass)).length,
   "MAYBE: " ++ Nat.repr (results.filter (fun r => r.verdict == Verdict.ok_maybe)).length,
   "XML/HTML (likely incompatible): " ++
     Nat.repr (results.filter (fun r => r.verdict == Verdict.xml_or_html)).length,
   "UNKNOWN/TEXT: " ++ Nat.repr (results.filter
     (fun r => r.verdict == Verdict.unknown || r.verdict == Verdict.text)).length,
   "FAIL/EMPTY: " ++ Nat.repr (results.filter
     (fun r => r.verdict == Verdict.fail || r.verdict == Verdict.empty)).length]

def reportSavedLine (cwd : String) : String :=
  "\nReport saved to " ++ (cwd ++ "/source-check-report.json")

/-- Function `main` followed by `main().catch(...)`: exit 1 with a
diagnostic on a missing or unparsable config.  With zero entries it
logs `NO_ENTRIES_LINE` and returns (exit 0) before issuing any request
or writing a report.  When some entry holds a JSON-null site, the
worker that picks it up throws a `TypeError` at the unguarded
`site.name` after its GET settles, `Promise.all` rejects, and
`main().catch` exits 1 — deterministically, so the model decides that
branch upfront; the Testing line is printed synchronously before the
pool starts, while the progress lines and requests issued before the
crash depend on scheduling and timing and are elided (as are the
engine-specific error renderings and the report timestamp), and no
report is written.  Otherwise the pool runs under the given schedule;
`main` awaits `Promise.all`, so an outcome exists (`some`) exactly when
the schedule drives every worker to completion, and the run ends with a
normal return (exit 0) however many probes failed. -/
def mainOutcome (cwd : String) (o : Oracle) (sched : List Choice)
    (cfg : CfgFile) : Option MainOutcome :=
  match cfg with
  | CfgFile.missing =>
    some { exitCode := 1, logs := [],
           errs := ["config.json not found at " ++ configPath cwd],
           report := none, fetches := [] }
  | CfgFile.present raw =>
    match jsonParse raw with
    | none =>
      some { exitCode := 1, logs := [],
             errs := ["Failed to parse config.json:"],
             report := none, fetches := [] }
    | some cfgv =>
      let rawEntries := jsEntries (sitesOf cfgv)
      if rawEntries.length = 0 then
        some { exitCode := 0, logs := [NO_ENTRIES_LINE], errs := [],
               report := none, fetches := [] }
      else if rawEntries.any (fun p => isNullV p.2) then
        some { exitCode := 1, logs := [testingLine rawEntries.length],
               errs := ["Unexpected error:"],
               report := none, fetches := [] }
      else
        let entries := rawEntries.map (fun p => (p.1, siteOf p.2))
        let final := runSched o sched (initState entries)
        if allDone final then
          some { exitCode := 0,
                 logs := testingLine entries.length :: final.logs ++
                   summaryLines final.results ++ [reportSavedLine cwd],
                 errs := [], report := some final.results,
                 fetches := final.fetches }
        else none

/-- A concrete endpoint, oracle and schedule driving one full run in
which the single probe fails with a network error. -/
def demoSite : Site := { name := "Demo", api := "https://demo/api" }

def demoEntries : List (String × Site) := [("demo", demoSite)]

def demoOracle : Oracle := fun _ => (NetBehavior.fails true "boom" "Error: boom" 5, 7)

def demoSched : List Choice :=
  [Choice.start 0, Choice.finish 0, Choice.retire 0, Choice.retire 1,
   Choice.retire 2, Choice.retire 3, Choice.retire 4, Choice.retire 5,
   Choice.retire 6, Choice.retire 7]

def demoFinal : RunState := runSched demoOracle demoSched (initState demoEntries)

/-- An endpoint set strictly larger than the concurrency bound. -/
def wideEntries : List (String × Site) :=
  (List.range 9).map (fun i => (Nat.repr i, demoSite))

/-! ## Theorems -/

/-! ## Invariants of the pool -/

/-- Replacing position `i` (holding `a`) by `b` changes a `filterMap`
list by removing `f a` and adding `f b`, up to permutation. -/
lemma filterMap_set_perm {α β : Type _} (f : α → Option β) :
    ∀ (l : List α) (i : Nat) (a b : α), l.get? i = some a →
      ((l.set i b).filterMap f ++ (f a).toList).Perm
        (l.filterMap f ++ (f b).toList) := by
  intro l
  induction l with
  | nil => intro i a b h; simp at h
  | cons c t ih =>
    intro i a b h
    cases i with
    | zero =>
      have hca : c = a := by simpa using h
      subst hca
      simp only [List.set]
      cases hfa : f c with
      | none =>
        cases hfb : f b with
        | none => simp [List.filterMap_cons, hfa, hfb]
        | some y =>
          simp only [List.filterMap_cons, hfa, hfb, Option.toList,
            List.append_nil]
          exact (List.perm_append_singleton y _).symm
      | some x =>
        cases hfb : f b with
        | none =>
          simp only [List.filterMap_cons, hfa, hfb, Option.toList,
            List.append_nil]
          exact List.perm_append_singleton x _
        | some y =>
          simp only [List.filterMap_cons, hfa, hfb, Option.toList,
            List.cons_append]
          exact ((List.Perm.cons y (List.perm_append_singleton x _)).trans
            (List.Perm.swap x y _)).trans
            (List.Perm.cons x (List.perm_append_singleton y _).symm)
    | succ n =>
      have h' : t.get? n = some a := by simpa using h
      simp only [List.set]
      cases hfc : f c with
      | none => simpa [List.filterMap_cons, hfc] using ih n a b h'
      | some y =>
        simpa [List.filterMap_cons, hfc] using List.Perm.cons y (ih n a b h')

/-- The multiset form of `filterMap_set_perm`. -/
lemma coe_filterMap_set {α β : Type _} (f : α → Option β) (l : List α)
    (i : Nat) (a b : α) (h : l.get? i = some a) :
    (((l.set i b).filterMap f : List β) : Multiset β) + ((f a).toList : List β) =
      ((l.filterMap f : List β) : Multiset β) + ((f b).toList : List β) := by
  rw [Multiset.coe_add, Multiset.coe_add, Multiset.coe_eq_coe]
  exact filterMap_set_perm f l i a b h

lemma resPair_mkResult (o : Oracle) (k : String) (site : Site) (url : String) :
    resPair (mkResult o k site url) = (k, url) := by
  by_cases h : (fetchWithTimeout (o url).1 TIMEOUT_MS).ok <;>
    simp [mkResult, resPair, h]

lemma runInv_init (o : Oracle) (entries : List (String × Site)) :
    RunInv o entries (initState entries) := by
  refine ⟨by simp [initState, CONCURRENCY], ?_, ?_, ?_, ?_, ?_, ?_⟩
  · simp [initState, inflightPairs, List.filterMap_replicate, statusPair]
  · simp [initState, inflightPairs, List.filterMap_replicate, statusPair]
  · intro w hw k site url heq
    have := List.eq_of_mem_replicate (show w ∈ _ from hw)
    subst this
    simp at heq
  · intro r hr; simp [initState] at hr
  · intro e he; simpa [initState] using he
  · intro hd
    have h8 : WStatus.idle ∈ (initState entries).workers := by
      simp [initState, CONCURRENCY, List.mem_replicate]
    have := hd _ h8
    simp at this

lemma runInv_step {o : Oracle} {entries : List (String × Site)} {s s' : RunState}
    (hs : Step o s s') (hi : RunInv o entries s) : RunInv o entries s' := by
  obtain ⟨h1, h2, h3, h4, h5, h6, h7⟩ := hi
  cases hs with
  | start i k site rest hw hq =>
    have hin : (↑(inflightPairs (s.workers.set i
          (WStatus.fetching k site (urlOfSite site)))) : Multiset (String × String)) =
        ↑(inflightPairs s.workers) + {(k, urlOfSite site)} := by
      simpa [inflightPairs, statusPair] using
        coe_filterMap_set statusPair s.workers i WStatus.idle
          (WStatus.fetching k site (urlOfSite site)) hw
    have hlt : i < s.workers.length := (List.get?_eq_some.mp hw).1
    refine ⟨by simpa using h1, ?_, ?_, ?_, h5, ?_, ?_⟩
    · rw [hq] at h2
      simp only [List.map_cons, ← Multiset.cons_coe] at h2
      show (↑(rest.map pairOf) : Multiset (String × String)) +
          ↑(inflightPairs (s.workers.set i (WStatus.fetching k site (urlOfSite site)))) +
          ↑(s.results.map resPair) = ↑(entries.map pairOf)
      rw [hin, ← h2]
      simp only [pairOf, ← Multiset.singleton_add]
      abel
    · show (↑(s.fetches ++ [(k, urlOfSite site)]) : Multiset (String × String)) =
        ↑(inflightPairs (s.workers.set i (WStatus.fetching k site (urlOfSite site)))) +
          ↑(s.results.map resPair)
      rw [← Multiset.coe_add, hin, h3]
      simp only [Multiset.coe_singleton]
      abel
    · intro w hwmem k' site' url' heq
      rcases List.mem_or_eq_of_mem_set hwmem with hmem | hnew
      · exact h4 w hmem k' site' url' heq
      · rw [hnew] at heq
        injection heq with e1 e2 e3
        subst e1; subst e2; subst e3
        exact ⟨h6 (k, site) (by rw [hq]; exact List.mem_cons_self _ _), rfl⟩
    · intro e he
      exact h6 e (by rw [hq]; exact List.mem_cons_of_mem _ he)
    · intro hd
      exfalso
      have hget : (s.workers.set i (WStatus.fetching k site (urlOfSite site))).get? i =
          some (WStatus.fetching k site (urlOfSite site)) :=
        List.get?_set_eq_of_lt _ hlt
      have := hd _ (List.get?_mem hget)
      simp at this
  | finish i k site url hw =>
    have hin : (↑(inflightPairs (s.workers.set i WStatus.idle)) : Multiset (String × String)) +
        {(k, url)} = ↑(inflightPairs s.workers) := by
      simpa [inflightPairs, statusPair] using
        coe_filterMap_set statusPair s.workers i (WStatus.fetching k site url)
          WStatus.idle hw
    have hlt : i < s.workers.length := (List.get?_eq_some.mp hw).1
    have hko := h4 _ (List.get?_mem hw) k site url rfl
    refine ⟨by simpa using h1, ?_, ?_, ?_, ?_, h6, ?_⟩
    · show (↑(s.queue.map pairOf) : Multiset (String × String)) +
          ↑(inflightPairs (s.workers.set i WStatus.idle)) +
          ↑((s.results ++ [mkResult o k site url]).map resPair) = ↑(entries.map pairOf)
      rw [List.map_append, ← Multiset.coe_add, ← h2, ← hin]
      simp only [List.map_singleton, resPair_mkResult, Multiset.coe_singleton]
      abel
    · show (↑s.fetches : Multiset (String × String)) =
        ↑(inflightPairs (s.workers.set i WStatus.idle)) +
          ↑((s.results ++ [mkResult o k site url]).map resPair)
      rw [h3, List.map_append, ← Multiset.coe_add, ← hin]
      simp only [List.map_singleton, resPair_mkResult, Multiset.coe_singleton]
      abel
    · intro w hwmem k' site' url' heq
      rcases List.mem_or_eq_of_mem_set hwmem with hmem | hnew
      · exact h4 w hmem k' site' url' heq
      · rw [hnew] at heq; cases heq
    · intro r hr
      rcases List.mem_append.mp hr with hold | hnewm
      · exact h5 r hold
      · have hr2 : r = mkResult o k site url := by simpa using hnewm
        subst hr2
        exact ⟨(k, site), hko.1, by rw [← hko.2]⟩
    · intro hd
      exfalso
      have hget : (s.workers.set i WStatus.idle).get? i = some WStatus.idle :=
        List.get?_set_eq_of_lt _ hlt
      have := hd _ (List.get?_mem hget)
      simp at this
  | retire i hw hq =>
    have hin : (↑(inflightPairs (s.workers.set i WStatus.done)) : Multiset (String × String)) =
        ↑(inflightPairs s.workers) := by
      simpa [inflightPairs, statusPair] using
        coe_filterMap_set statusPair s.workers i WStatus.idle WStatus.done hw
    refine ⟨by simpa using h1, ?_, ?_, ?_, h5, h6, ?_⟩
    · show (↑(s.queue.map pairOf) : Multiset (String × String)) +
          ↑(inflightPairs (s.workers.set i WStatus.done)) +
          ↑(s.results.map resPair) = ↑(entries.map pairOf)
      rw [hin]; exact h2
    · show (↑s.fetches : Multiset (String × String)) =
        ↑(inflightPairs (s.workers.set i WStatus.done)) + ↑(s.results.map resPair)
      rw [hin]; exact h3
    · intro w hwmem k' site' url' heq
      rcases List.mem_or_eq_of_mem_set hwmem with hmem | hnew
      · exact h4 w hmem k' site' url' heq
      · rw [hnew] at heq; cases heq
    · intro _
      exact hq

lemma runInv_reaches {o : Oracle} {entries : List (String × Site)} {s : RunState}
    (h : Reaches o entries s) : RunInv o entries s := by
  induction h with
  | refl => exact runInv_init o entries
  | tail _ hbc ih => exact runInv_step hbc ih

lemma filterMap_statusPair_done :
    ∀ ws : List WStatus, (∀ w ∈ ws, w = WStatus.done) →
      ws.filterMap statusPair = [] := by
  intro ws
  induction ws with
  | nil => intro _; rfl
  | cons a t ih =>
    intro h
    have ha := h a (List.mem_cons_self a t)
    subst ha
    simp only [List.filterMap_cons, statusPair]
    exact ih (fun w hw => h w (List.mem_cons_of_mem _ hw))

lemma inflight_nil_of_allDone {s : RunState} (hd : allDone s) :
    inflightPairs s.workers = [] :=
  filterMap_statusPair_done s.workers hd

lemma stepFn_sound {o : Oracle} {c : Choice} {s s' : RunState}
    (h : stepFn o c s = some s') : Step o s s' := by
  cases c with
  | start i =>
    simp only [stepFn] at h
    split at h
    · next k site rest hget hqe =>
      cases h
      exact Step.start s i k site rest hget hqe
    · cases h
  | finish i =>
    simp only [stepFn] at h
    split at h
    · next k site url hget =>
      cases h
      exact Step.finish s i k site url hget
    · cases h
  | retire i =>
    simp only [stepFn] at h
    split at h
    · next hget hqe =>
      cases h
      exact Step.retire s i hget hqe
    · cases h

lemma reflTransGen_runSched (o : Oracle) :
    ∀ (cs : List Choice) (s : RunState),
      Relation.ReflTransGen (Step o) s (runSched o cs s) := by
  intro cs
  induction cs with
  | nil => intro s; exact Relation.ReflTransGen.refl
  | cons c rest ih =>
    intro s
    show Relation.ReflTransGen (Step o) s (runSched o rest ((stepFn o c s).getD s))
    cases hsf : stepFn o c s with
    | none => exact ih s
    | some s2 => exact Relation.ReflTransGen.head (stepFn_sound hsf) (ih s2)

lemma reaches_runSched (o : Oracle) (entries : List (String × Site))
    (cs : List Choice) :
    Reaches o entries (runSched o cs (initState entries)) :=
  reflTransGen_runSched o cs (initState entries)

/-- From any state with a worker still running, some transition is
enabled: the pool never gets stuck before `Promise.all` resolves. -/
lemma step_progress (o : Oracle) (s : RunState) (hnd : ¬ allDone s) :
    ∃ s', Step o s s' := by
  unfold allDone at hnd
  push_neg at hnd
  obtain ⟨w, hw, hne⟩ := hnd
  obtain ⟨i, hget⟩ := List.get?_of_mem hw
  cases w with
  | idle =>
    cases hq : s.queue with
    | nil => exact ⟨_, Step.retire s i hget hq⟩
    | cons e rest => exact ⟨_, Step.start s i e.1 e.2 rest hget (by rw [hq])⟩
  | fetching k site url => exact ⟨_, Step.finish s i k site url hget⟩
  | done => exact absurd rfl hne

lemma eq_of_nodup_keys {α β : Type _} :
    ∀ (l : List (α × β)), (l.map Prod.fst).Nodup →
      ∀ (k : α) (a b : β), (k, a) ∈ l → (k, b) ∈ l → a = b := by
  intro l
  induction l with
  | nil => intro _ k a b h; simp at h
  | cons e t ih =>
    intro hnd k a b ha hb
    simp only [List.map_cons, List.nodup_cons] at hnd
    rcases List.mem_cons.mp ha with he1 | ht1 <;> rcases List.mem_cons.mp hb with he2 | ht2
    · rw [← he2] at he1; exact (Prod.mk.injEq _ _ _ _).mp he1 |>.2
    · exfalso
      apply hnd.1
      rw [← he1]
      exact List.mem_map.mpr ⟨(k, b), ht2, rfl⟩
    · exfalso
      apply hnd.1
      rw [← he2]
      exact List.mem_map.mpr ⟨(k, a), ht1, rfl⟩
    · exact ih hnd.2 k a b ht1 ht2

lemma strLengthPos (s : String) : 0 < s.length ↔ s ≠ "" := by
  constructor
  · intro h hc
    subst hc
    simp at h
  · intro h
    rcases s with ⟨data⟩
    cases data with
    | nil => exact absurd rfl h
    | cons c t => simp [String.length]

lemma judgeParsed_eq_spec (j : JValue) :
    (judgeParsed j).verdict = specShapeVerdict j := by
  have htr : truthy j = true ∨
      (jsGet j "list" = none ∧ jsGet j "data" = none ∧
        jsGet j "code" = none ∧ jsGet j "total" = none) := by
    cases j with
    | null => exact Or.inr ⟨rfl, rfl, rfl, rfl⟩
    | bool b => exact Or.inr ⟨rfl, rfl, rfl, rfl⟩
    | num n m e => exact Or.inr ⟨rfl, rfl, rfl, rfl⟩
    | str s => exact Or.inr ⟨rfl, rfl, rfl, rfl⟩
    | arr xs => exact Or.inr ⟨rfl, rfl, rfl, rfl⟩
    | obj fs => exact Or.inl rfl
  rcases htr with h | ⟨hl, hdta, hc, htt⟩
  · simp only [judgeParsed, specShapeVerdict, h, Bool.true_and,
      apply_ite JudgeResult.verdict]
  · simp [judgeParsed, specShapeVerdict, hl, hdta, hc, htt, isArrOpt]

/-- C2: for every body that parses as JSON, the classifier follows the
spec's cascade: `ok` for an array-valued `list` field, else `ok_maybe`
for an array-valued `data` field, else `ok_maybe` for a present `code`
or `total` field, else `unknown`; the given example bodies classify as
claimed, and shape `ok` maps to the final verdict `pass`. -/
theorem classify_parsed_shape :
    (∀ (text : String) (j : JValue), jsonParse text = some j →
      (judgeResponseShape text).verdict = specShapeVerdict j) ∧
    (judgeResponseShape "\x7b\"list\":[1,2]\x7d").verdict = Verdict.ok ∧
    (judgeResponseShape "\x7b\"data\":[1]\x7d").verdict = Verdict.ok_maybe ∧
    (judgeResponseShape "\x7b\"code\":0\x7d").verdict = Verdict.ok_maybe ∧
    (judgeResponseShape "\x7b\"foo\":1\x7d").verdict = Verdict.unknown ∧
    workerVerdict Verdict.ok = Verdict.pass := by
  refine ⟨?_, rfl, rfl, rfl, rfl, rfl⟩
  intro text j h
  simp only [judgeResponseShape, h]
  exact judgeParsed_eq_spec j

/-- Witness for C2 at the concrete body `'{"data":[1]}'`. -/
theorem classify_parsed_shape_witness :
    jsonParse "\x7b\"data\":[1]\x7d" =
      some (JValue.obj [("data", JValue.arr [JValue.num false 1 0])]) ∧
    (judgeResponseShape "\x7b\"data\":[1]\x7d").verdict =
      specShapeVerdict (JValue.obj [("data", JValue.arr [JValue.num false 1 0])]) :=
  ⟨rfl, classify_parsed_shape.1 _ _ rfl⟩

/-- C3 fails as stated: the body `" <"` does not parse as JSON and does
not start with `<`, yet the classifier trims the body before the markup
check and returns `xml_or_html` rather than `text`. -/
theorem classify_unparsed_counterexample :
    jsonParse " <" = none ∧
    (judgeResponseShape " <").verdict = Verdict.xml_or_html ∧
    jsStartsWith " <" "<" = false ∧
    (" <" : String) ≠ "" :=
  ⟨rfl, rfl, rfl, by decide⟩

/-- C3 amended: for every body that fails to parse as JSON, the
classifier returns `xml_or_html` exactly when the body, after trimming
surrounding whitespace, starts with `<`; otherwise it returns `text`
when the body is non-empty and `empty` when the body is the empty
string. -/
theorem classify_unparsed_amended (text : String) (h : jsonParse text = none) :
    ((judgeResponseShape text).verdict = Verdict.xml_or_html ↔
      jsStartsWith (jsTrim text) "<" = true) ∧
    (jsStartsWith (jsTrim text) "<" = false →
      (text ≠ "" → (judgeResponseShape text).verdict = Verdict.text) ∧
      (text = "" → (judgeResponseShape text).verdict = Verdict.empty)) := by
  by_cases hs : jsStartsWith (jsTrim text) "<" = true
  · simp [judgeResponseShape, h, hs]
  · have hs' : jsStartsWith (jsTrim text) "<" = false := by
      simpa using hs
    refine ⟨?_, fun _ => ⟨?_, ?_⟩⟩
    · simp only [judgeResponseShape, h, hs']
      by_cases hl : 0 < text.length <;> simp [hl, hs']
    · intro hne
      have hl : 0 < text.length := (strLengthPos text).mpr hne
      simp [judgeResponseShape, h, hs', hl]
    · intro he
      subst he
      simp [judgeResponseShape, h, hs']

/-- Witness for C3 amended at the concrete body `"<x"`. -/
theorem classify_unparsed_amended_witness :
    jsonParse "<x" = none ∧
    ((judgeResponseShape "<x").verdict = Verdict.xml_or_html ↔
      jsStartsWith (jsTrim "<x") "<" = true) :=
  ⟨rfl, (classify_unparsed_amended "<x" rfl).1⟩

lemma append_query_sep (t sep : String) :
    t ++ sep ++ "ac=videolist&wd=" ++ encodeURIComponent TEST_QUERY ++ "&pg=1" =
      t ++ (sep ++ "ac=videolist&wd=test&pg=1") := by
  have henc : encodeURIComponent TEST_QUERY = "test" := rfl
  rw [henc, String.append_assoc, String.append_assoc, String.append_assoc]
  rfl

/-- C4: `buildTestUrl` trims the base, then appends the fixed query
`ac=videolist&wd=test&pg=1` with `?` when the trimmed base contains no
`?` and `&` when it does; the spec's example evaluates as claimed. -/
theorem buildTestUrl_appends_query :
    (∀ base : String, containsChar (jsTrim base) '?' = false →
      buildTestUrl base = jsTrim base ++ "?ac=videolist&wd=test&pg=1") ∧
    (∀ base : String, containsChar (jsTrim base) '?' = true →
      buildTestUrl base = jsTrim base ++ "&ac=videolist&wd=test&pg=1") ∧
    buildTestUrl " https://api.example.com/provide/vod " =
      "https://api.example.com/provide/vod?ac=videolist&wd=test&pg=1" := by
  refine ⟨?_, ?_, rfl⟩ <;> intro base h <;>
    simp only [buildTestUrl, h, Bool.false_eq_true, if_false, if_true] <;>
    exact append_query_sep (jsTrim base) _

/-- Witness for C4 at concrete bases with and without a query string. -/
theorem buildTestUrl_appends_query_witness :
    buildTestUrl " https://a/b " = jsTrim " https://a/b " ++ "?ac=videolist&wd=test&pg=1" ∧
    buildTestUrl "https://a/b?x=1" = jsTrim "https://a/b?x=1" ++ "&ac=videolist&wd=test&pg=1" :=
  ⟨buildTestUrl_appends_query.1 " https://a/b " rfl,
   buildTestUrl_appends_query.2.1 "https://a/b?x=1" rfl⟩

/-- C6: `fetchWithTimeout` issues a GET request bounded by the 10,000 ms
timeout and never raises: a network error or a timeout (a request not
settled before the abort timer) yields a failure outcome with `ok`
false, status 0 and the error message; a response yields the response's
`ok` flag, status and body text. -/
theorem fetchWithTimeout_outcomes :
    TIMEOUT_MS = 10000 ∧
    (∀ url, (checkRequest url).method = "GET") ∧
    (∀ (tr : Bool) (msg str : String) (t : Nat), t < TIMEOUT_MS →
      fetchWithTimeout (NetBehavior.fails tr msg str t) TIMEOUT_MS =
        { ok := false, status := 0, text := none, error := some (errDetail tr msg str) }) ∧
    (∀ (ok : Bool) (status : Nat) (body : String) (t : Nat), t < TIMEOUT_MS →
      fetchWithTimeout (NetBehavior.replies ok status body t) TIMEOUT_MS =
        { ok := ok, status := status, text := some body, error := none }) ∧
    (∀ (ok : Bool) (status : Nat) (body : String) (t : Nat), TIMEOUT_MS ≤ t →
      fetchWithTimeout (NetBehavior.replies ok status body t) TIMEOUT_MS =
        { ok := false, status := 0, text := none, error := some ABORT_MESSAGE }) ∧
    (∀ (tr : Bool) (msg str : String) (t : Nat), TIMEOUT_MS ≤ t →
      fetchWithTimeout (NetBehavior.fails tr msg str t) TIMEOUT_MS =
        { ok := false, status := 0, text := none, error := some ABORT_MESSAGE }) ∧
    fetchWithTimeout NetBehavior.hangs TIMEOUT_MS =
      { ok := false, status := 0, text := none, error := some ABORT_MESSAGE } := by
  refine ⟨rfl, fun _ => rfl, ?_, ?_, ?_, ?_, rfl⟩
  · intro tr msg str t ht
    simp [fetchWithTimeout, ht]
  · intro ok status body t ht
    simp [fetchWithTimeout, ht]
  · intro ok status body t ht
    simp [fetchWithTimeout, Nat.not_lt.mpr ht]
  · intro tr msg str t ht
    simp [fetchWithTimeout, Nat.not_lt.mpr ht]

/-- Witness for C6 at concrete behaviours and times. -/
theorem fetchWithTimeout_outcomes_witness :
    fetchWithTimeout (NetBehavior.fails true "connect ECONNREFUSED" "Error" 5) TIMEOUT_MS =
      { ok := false, status := 0, text := none,
        error := some (errDetail true "connect ECONNREFUSED" "Error") } ∧
    fetchWithTimeout (NetBehavior.replies true 200 "hi" 3) TIMEOUT_MS =
      { ok := true, status := 200, text := some "hi", error := none } ∧
    fetchWithTimeout (NetBehavior.replies true 200 "hi" 20000) TIMEOUT_MS =
      { ok := false, status := 0, text := none, error := some ABORT_MESSAGE } :=
  ⟨fetchWithTimeout_outcomes.2.2.1 true "connect ECONNREFUSED" "Error" 5 (by decide),
   fetchWithTimeout_outcomes.2.2.2.1 true 200 "hi" 3 (by decide),
   fetchWithTimeout_outcomes.2.2.2.2.1 true 200 "hi" 20000 (by decide)⟩

lemma mkResult_key (o : Oracle) (k : String) (site : Site) (url : String) :
    (mkResult o k site url).key = k := by
  by_cases h : (fetchWithTimeout (o url).1 TIMEOUT_MS).ok <;> simp [mkResult, h]

lemma mkResult_fail (o : Oracle) (k : String) (site : Site) (url : String)
    (h : (fetchWithTimeout (o url).1 TIMEOUT_MS).ok = false) :
    (mkResult o k site url).verdict = Verdict.fail ∧
    (∀ msg, (fetchWithTimeout (o url).1 TIMEOUT_MS).error = some msg → msg ≠ "" →
      (mkResult o k site url).detail = msg) ∧
    ((fetchWithTimeout (o url).1 TIMEOUT_MS).error = none →
      (mkResult o k site url).detail =
        "HTTP " ++ Nat.repr (fetchWithTimeout (o url).1 TIMEOUT_MS).status) := by
  refine ⟨by simp [mkResult, h], ?_, ?_⟩
  · intro msg hmsg hne
    simp [mkResult, h, hmsg, hne]
  · intro hnone
    simp [mkResult, h, hnone]

/-- C1: after a completed run over any configured entries, under any
network oracle and any interleaving, the shared results list holds
exactly one probe result per configured endpoint (equal multisets of
key/test-URL pairs: no duplicates, no omissions), the set of GET
requests issued is exactly one probe per endpoint (no retries), and the
result keys are exactly the configured keys — however many probes
failed. -/
theorem runAll_one_result_per_endpoint (o : Oracle)
    (entries : List (String × Site)) (s : RunState)
    (hr : Reaches o entries s) (hd : allDone s) :
    ((s.results.map resPair : List (String × String)) : Multiset (String × String)) =
        ↑(entries.map pairOf) ∧
    ((s.fetches : List (String × String)) : Multiset (String × String)) =
        ↑(entries.map pairOf) ∧
    ((s.results.map ProbeResult.key : List String) : Multiset String) =
        ↑(entries.map Prod.fst) := by
  obtain ⟨h1, h2, h3, h4, h5, h6, h7⟩ := runInv_reaches hr
  have hq := h7 hd
  have hin := inflight_nil_of_allDone hd
  rw [hq, hin] at h2
  rw [hin] at h3
  simp only [List.map_nil, Multiset.coe_nil, zero_add, add_zero] at h2 h3
  refine ⟨h2, by rw [h3, h2], ?_⟩
  have hmap := congrArg (Multiset.map Prod.fst) h2
  simpa [Multiset.map_coe, List.map_map, Function.comp, resPair, pairOf] using hmap

/-- C5: a probe that settles as a failure (network error, timeout, or —
for the recorded status — any `ok = false` response such as a non-2xx
status) is recorded in a completed run as a `fail` verdict whose detail
is the error message when a non-empty one exists and `HTTP <status>`
otherwise; and the run always continues: from any state that is not yet
finished some worker can move. -/
theorem failed_probe_recorded (o : Oracle) (entries : List (String × Site)) :
    (∀ s, Reaches o entries s → ¬ allDone s → ∃ s', Step o s s') ∧
    (∀ s, Reaches o entries s → allDone s → (entries.map Prod.fst).Nodup →
      ∀ (k : String) (site : Site), (k, site) ∈ entries →
        (fetchWithTimeout (o (urlOfSite site)).1 TIMEOUT_MS).ok = false →
        ∃ r ∈ s.results, r.key = k ∧ r.verdict = Verdict.fail ∧
          (∀ msg, (fetchWithTimeout (o (urlOfSite site)).1 TIMEOUT_MS).error = some msg →
            msg ≠ "" → r.detail = msg) ∧
          ((fetchWithTimeout (o (urlOfSite site)).1 TIMEOUT_MS).error = none →
            r.detail =
              "HTTP " ++ Nat.repr (fetchWithTimeout (o (urlOfSite site)).1 TIMEOUT_MS).status)) := by
  constructor
  · intro s _ hnd
    exact step_progress o s hnd
  · intro s hr hd hnd k site hmem hfail
    obtain ⟨h1, h2, h3, h4, h5, h6, h7⟩ := runInv_reaches hr
    have hq := h7 hd
    have hin := inflight_nil_of_allDone hd
    rw [hq, hin] at h2
    simp only [List.map_nil, Multiset.coe_nil, zero_add, add_zero] at h2
    have hmem2 : (k, urlOfSite site) ∈ entries.map pairOf :=
      List.mem_map.mpr ⟨(k, site), hmem, rfl⟩
    have hmem3 : (k, urlOfSite site) ∈ s.results.map resPair := by
      have hcoe : (k, urlOfSite site) ∈ (↑(s.results.map resPair) : Multiset (String × String)) := by
        rw [h2]
        exact Multiset.mem_coe.mpr hmem2
      exact Multiset.mem_coe.mp hcoe
    obtain ⟨r, hrmem, hrp⟩ := List.mem_map.mp hmem3
    obtain ⟨e, hemem, hre⟩ := h5 r hrmem
    have hkey : r.key = k := by
      have := congrArg Prod.fst hrp
      simpa [resPair] using this
    have he1 : e.1 = k := by
      rw [hre] at hkey
      rwa [mkResult_key] at hkey
    have he2 : e.2 = site := by
      apply eq_of_nodup_keys entries hnd k e.2 site
      · rw [← he1]
        exact hemem
      · exact hmem
    have hre2 : r = mkResult o k site (urlOfSite site) := by
      rw [hre, he1, he2]
    obtain ⟨hv, hd1, hd2⟩ := mkResult_fail o k site (urlOfSite site) hfail
    exact ⟨r, hrmem, hkey, by rw [hre2]; exact hv,
      fun msg hmsg hne => by rw [hre2]; exact hd1 msg hmsg hne,
      fun hnone => by rw [hre2]; exact hd2 hnone⟩

/-- C7: the number of simultaneously in-flight probe requests never
exceeds the fixed concurrency bound `CONCURRENCY = 8`, in every
reachable state of a run over an endpoint set larger than the bound. -/
theorem worker_pool_concurrency_bound (o : Oracle)
    (entries : List (String × Site)) (s : RunState)
    (hr : Reaches o entries s) (_hbig : CONCURRENCY < entries.length) :
    inFlight s ≤ CONCURRENCY ∧ CONCURRENCY = 8 := by
  refine ⟨?_, rfl⟩
  have h1 := (runInv_reaches hr).1
  calc inFlight s ≤ s.workers.length := List.length_filterMap_le _ _
    _ = CONCURRENCY := h1

lemma mainOutcome_no_entries (cwd : String) (o : Oracle) (sched : List Choice)
    (raw : String) (cfgv : JValue) (hp : jsonParse raw = some cfgv)
    (he : jsEntries (sitesOf cfgv) = []) :
    mainOutcome cwd o sched (CfgFile.present raw) =
      some { exitCode := 0, logs := [NO_ENTRIES_LINE], errs := [],
             report := none, fetches := [] } := by
  simp [mainOutcome, hp, he]

/-- C8: the process exits non-zero exactly when the configuration file
is missing, the configuration fails to parse, or an unexpected
exception escapes the top-level run — in this program the `TypeError`
thrown at the unguarded `site.name` when some `api_site` entry holds a
JSON-null site, caught by `main().catch` with exit 1; whenever a run
completes normally — under any network oracle, however many probes
fail — the exit code is zero. -/
theorem main_exit_codes (cwd : String) (o : Oracle) (sched : List Choice)
    (cfg : CfgFile) (out : MainOutcome)
    (h : mainOutcome cwd o sched cfg = some out) :
    out.exitCode ≠ 0 ↔
      (cfg = CfgFile.missing ∨
        (∃ raw, cfg = CfgFile.present raw ∧ jsonParse raw = none) ∨
        (∃ raw cfgv, cfg = CfgFile.present raw ∧ jsonParse raw = some cfgv ∧
          crashesOnNullSite cfgv = true)) := by
  cases cfg with
  | missing =>
    simp only [mainOutcome, Option.some.injEq] at h
    subst h
    simp
  | present raw =>
    cases hp : jsonParse raw with
    | none =>
      simp only [mainOutcome, hp, Option.some.injEq] at h
      subst h
      simp [hp]
    | some cfgv =>
      simp only [mainOutcome, hp] at h
      by_cases hz : (jsEntries (sitesOf cfgv)).length = 0
      · rw [if_pos hz] at h
        cases h
        have hcr : crashesOnNullSite cfgv = false := by
          unfold crashesOnNullSite
          rw [List.length_eq_zero.mp hz]
          rfl
        simp [hp, hcr]
      · rw [if_neg hz] at h
        by_cases hn : ((jsEntries (sitesOf cfgv)).any (fun p => isNullV p.2)) = true
        · rw [if_pos hn] at h
          cases h
          have hcr : crashesOnNullSite cfgv = true := hn
          exact iff_of_true (by exact Nat.one_ne_zero)
            (Or.inr (Or.inr ⟨raw, cfgv, rfl, hp, hcr⟩))
        · rw [if_neg hn] at h
          by_cases hdn : allDone (runSched o sched
              (initState ((jsEntries (sitesOf cfgv)).map (fun p => (p.1, siteOf p.2)))))
          · rw [if_pos hdn] at h
            cases h
            simp only [ne_eq, not_true_eq_false, false_iff]
            intro hc
            rcases hc with hc | ⟨raw2, hc, hp2⟩ | ⟨raw2, cfgv2, hc, hp2, hcr2⟩
            · cases hc
            · cases hc
              rw [hp] at hp2
              cases hp2
            · cases hc
              rw [hp] at hp2
              cases hp2
              exact hn hcr2
          · rw [if_neg hdn] at h
            cases h

/-- C9: a run whose configuration parses but yields zero endpoint
entries logs exactly the no-entries message (the claimed text plus the
source's trailing period), issues no network request, writes no report,
and exits zero — deterministically: the outcome does not depend on the
network oracle or the schedule. -/
theorem main_zero_entries (cwd : String) (o : Oracle) (sched : List Choice)
    (raw : String) (cfgv : JValue) (hp : jsonParse raw = some cfgv)
    (he : jsEntries (sitesOf cfgv) = []) :
    mainOutcome cwd o sched (CfgFile.present raw) =
      some { exitCode := 0, logs := [NO_ENTRIES_LINE], errs := [],
             report := none, fetches := [] } ∧
    NO_ENTRIES_LINE = "No api_site entries found" ++ "." :=
  ⟨mainOutcome_no_entries cwd o sched raw cfgv hp he, rfl⟩

/-- Witness for C9 at the concrete configuration `'{}'`. -/
theorem main_zero_entries_witness :
    jsonParse "\x7b\x7d" = some (JValue.obj []) ∧
    mainOutcome "/w" (fun _ => (NetBehavior.hangs, 0)) [] (CfgFile.present "\x7b\x7d") =
      some { exitCode := 0, logs := [NO_ENTRIES_LINE], errs := [],
             report := none, fetches := [] } :=
  ⟨rfl, (main_zero_entries "/w" (fun _ => (NetBehavior.hangs, 0)) [] "\x7b\x7d"
    (JValue.obj []) rfl rfl).1⟩

/-- C10: a configuration that parses but has no `api_site` field, or a
falsy one, is treated exactly like a zero-endpoint configuration: the
no-entries message is logged and the process exits zero, rather than
failing. -/
theorem main_missing_api_site (cwd : String) (o : Oracle) (sched : List Choice)
    (raw : String) (cfgv : JValue) (hp : jsonParse raw = some cfgv)
    (hf : truthyOpt (jsGet cfgv "api_site") = false) :
    mainOutcome cwd o sched (CfgFile.present raw) =
      some { exitCode := 0, logs := [NO_ENTRIES_LINE], errs := [],
             report := none, fetches := [] } := by
  have hsites : sitesOf cfgv = JValue.obj [] := by
    simp [sitesOf, hf]
  exact mainOutcome_no_entries cwd o sched raw cfgv hp (by rw [hsites]; rfl)

/-- Witness for C10 at the concrete configuration `'{"api_site":0}'`. -/
theorem main_missing_api_site_witness :
    jsonParse "\x7b\"api_site\":0\x7d" =
      some (JValue.obj [("api_site", JValue.num false 0 0)]) ∧
    mainOutcome "/w" (fun _ => (NetBehavior.hangs, 0)) []
        (CfgFile.present "\x7b\"api_site\":0\x7d") =
      some { exitCode := 0, logs := [NO_ENTRIES_LINE], errs := [],
             report := none, fetches := [] } :=
  ⟨rfl, main_missing_api_site "/w" (fun _ => (NetBehavior.hangs, 0)) []
    "\x7b\"api_site\":0\x7d" (JValue.obj [("api_site", JValue.num false 0 0)]) rfl rfl⟩

/-- Witness for C8 at a parseable crashing configuration: an `api_site`
object mapping the key `k` to JSON null, whose worker throws at
`site.name`, so the run exits 1. -/
theorem main_exit_codes_witness :
    ((1 : Nat) ≠ 0 ↔
      (CfgFile.present "\x7b\"api_site\":\x7b\"k\":null\x7d\x7d" = CfgFile.missing ∨
        (∃ raw, CfgFile.present "\x7b\"api_site\":\x7b\"k\":null\x7d\x7d" =
          CfgFile.present raw ∧ jsonParse raw = none) ∨
        (∃ raw cfgv, CfgFile.present "\x7b\"api_site\":\x7b\"k\":null\x7d\x7d" =
          CfgFile.present raw ∧ jsonParse raw = some cfgv ∧
          crashesOnNullSite cfgv = true))) :=
  main_exit_codes "/w" (fun _ => (NetBehavior.hangs, 0)) []
    (CfgFile.present "\x7b\"api_site\":\x7b\"k\":null\x7d\x7d")
    { exitCode := 1, logs := [testingLine 1], errs := ["Unexpected error:"],
      report := none, fetches := [] } rfl

/-- Witness for C1 at the completed demo run. -/
theorem runAll_one_result_per_endpoint_witness :
    allDone demoFinal ∧
    ((demoFinal.results.map resPair : List (String × String)) : Multiset (String × String)) =
      ↑(demoEntries.map pairOf) ∧
    ((demoFinal.fetches : List (String × String)) : Multiset (String × String)) =
      ↑(demoEntries.map pairOf) := by
  have h := runAll_one_result_per_endpoint demoOracle demoEntries demoFinal
    (reaches_runSched demoOracle demoEntries demoSched) (by decide)
  exact ⟨by decide, h.1, h.2.1⟩

/-- Witness for C5 at the completed demo run with the failing probe. -/
theorem failed_probe_recorded_witness :
    allDone demoFinal ∧
    (demoEntries.map Prod.fst).Nodup ∧
    ("demo", demoSite) ∈ demoEntries ∧
    (fetchWithTimeout (demoOracle (urlOfSite demoSite)).1 TIMEOUT_MS).ok = false ∧
    ∃ r ∈ demoFinal.results, r.key = "demo" ∧ r.verdict = Verdict.fail ∧
      (∀ msg, (fetchWithTimeout (demoOracle (urlOfSite demoSite)).1 TIMEOUT_MS).error = some msg →
        msg ≠ "" → r.detail = msg) ∧
      ((fetchWithTimeout (demoOracle (urlOfSite demoSite)).1 TIMEOUT_MS).error = none →
        r.detail =
          "HTTP " ++ Nat.repr (fetchWithTimeout (demoOracle (urlOfSite demoSite)).1 TIMEOUT_MS).status) := by
  refine ⟨by decide, by decide, by decide, rfl, ?_⟩
  exact (failed_probe_recorded demoOracle demoEntries).2 demoFinal
    (reaches_runSched demoOracle demoEntries demoSched) (by decide) (by decide)
    "demo" demoSite (by decide) rfl

/-- Witness for C7 at the initial state of a nine-endpoint run. -/
theorem worker_pool_concurrency_bound_witness :
    CONCURRENCY < wideEntries.length ∧
    inFlight (initState wideEntries) ≤ CONCURRENCY ∧ CONCURRENCY = 8 := by
  have h := worker_pool_concurrency_bound demoOracle wideEntries
    (initState wideEntries) Relation.ReflTransGen.refl (by decide)
  exact ⟨by decide, h.1, h.2⟩
